import Mathlib

/-!
Verification development for the mbrain Slack→Notion note capture system.

The definitions below are a shallow embedding of the TypeScript sources:
the PARA classifier post-processing (`src/services/claude.ts`,
`classifyMessageWithIntent`), the URL extractor (`src/services/url-extractor.ts`),
the Notion store operations and event router (`api/slack/events.ts`,
`src/services/notion.ts`, `src/services/notion-helpers.ts`), the tiered
reminder service (`src/services/reminder.ts`) and the status-sync service
(`src/services/status-sync.ts`) together with the hourly cron handler
(`api/cron/hourly.ts`).

Conventions of the embedding:
- JavaScript strings are Lean `String`s (or `List Char` where character-level
  scanning is needed); JS `undefined`/`null` fields are `Option`s; JS truthiness
  of a string is "not the empty string".
- JS numbers holding confidences are embedded as `ℚ`; millisecond timestamps
  (`Date.now()`, `getTime()`) as `Int`.
- Fallible calls (`throw`) are `Except String` results; a thrown-and-caught
  error at a call site is modelled exactly where the source catches it.
- The Notion database is a list of records; a Notion query with an `equals`
  filter is a list filter; `page_size` caps are `List.take`.
-/

namespace Mbrain

/-- PARA category select options (`src/types/index.ts`). -/
inductive PARACategory
  | Projects | Areas | Resources | Archive | Inbox | Uncategorized
deriving DecidableEq, Repr

/-- Area subcategory select options (`src/types/index.ts`). -/
inductive AreaSubcategory
  | Relationships | Health | Finances | Career | Home
deriving DecidableEq, Repr

/-- Message intent (`src/types/index.ts`). -/
inductive MessageIntent
  | note | question | noise
deriving DecidableEq, Repr

/-- The parsed JSON object returned by the model inside
`classifyMessageWithIntent` (interface `ClaudeIntentResponse` in
`src/services/claude.ts`).  `confidence` is an `Option` because the code
reads it as `result.confidence ?? 0`. -/
structure ClaudeIntentResponse where
  intent : MessageIntent
  isMeaningful : Bool
  category : Option PARACategory
  subcategory : Option AreaSubcategory
  confidence : Option ℚ
  reasoning : String
  nextAction : Option String
deriving DecidableEq, Repr

/-- `MessageClassification` (`src/types/index.ts`). -/
structure MessageClassification where
  intent : MessageIntent
  isMeaningful : Bool
  category : Option PARACategory := none
  subcategory : Option AreaSubcategory := none
  confidence : ℚ
  reasoning : String
  nextAction : Option String := none
deriving DecidableEq, Repr

/-- `Math.max(0, Math.min(1, x))` — the confidence normalisation in
`classifyMessageWithIntent`. -/
def clamp01 (x : ℚ) : ℚ := max 0 (min 1 x)

/-- JS truthiness filter for an optional string (`if (result.nextAction) ...`):
an absent or empty string is dropped. -/
def truthyString : Option String → Option String
  | none => none
  | some s => if s = "" then none else some s

/-- The deterministic post-processing of a successfully parsed model response
inside `classifyMessageWithIntent` (`src/services/claude.ts`): early returns
for `question` and `noise`, confidence clamping, the Inbox confidence
threshold, the Areas-only subcategory, and the truthiness filter on
`nextAction`. -/
def classifyIntentLogic (threshold : ℚ) (r : ClaudeIntentResponse) :
    MessageClassification :=
  if r.intent = .question then
    { intent := .question, isMeaningful := true, confidence := 1,
      reasoning := r.reasoning }
  else if r.intent = .noise ∨ r.isMeaningful = false then
    { intent := .noise, isMeaningful := false, confidence := 0,
      reasoning := r.reasoning }
  else
    let normalizedConfidence := clamp01 (r.confidence.getD 0)
    let rawCategory := r.category.getD .Uncategorized
    let finalCategory : PARACategory :=
      if normalizedConfidence < threshold then .Inbox else rawCategory
    { intent := .note
      isMeaningful := true
      category := some finalCategory
      subcategory := if finalCategory = .Areas then r.subcategory else none
      confidence := normalizedConfidence
      reasoning := r.reasoning
      nextAction := truthyString r.nextAction }

/-- The `catch` fallback of `classifyMessageWithIntent`. -/
def fallbackClassification : MessageClassification :=
  { intent := .note, isMeaningful := true, category := some .Uncategorized,
    confidence := 0,
    reasoning := "Classification failed - defaulting to Uncategorized" }

/-- `classifyMessageWithIntent` (`src/services/claude.ts`): `modelResponse`
is `some r` when the model call succeeded and parsed as `r`, `none` when the
call failed in any way (timeout, empty content, bad JSON, bad structure). -/
def classifyMessageWithIntent (threshold : ℚ)
    (modelResponse : Option ClaudeIntentResponse) : MessageClassification :=
  match modelResponse with
  | none => fallbackClassification
  | some r => classifyIntentLogic threshold r

/-! ### URL extractor (`src/services/url-extractor.ts`, bounded version)

The source runs two `RegExp.exec` loops over the message text, sharing one
iteration counter capped at `MAX_URL_MATCHES = 100`:
first `/<(https?:\/\/[^|>]+)(?:\|[^>]*)?>/g` (Slack-wrapped links, pushed
unconditionally), then `/(?<![<|])https?:\/\/[^\s<>]+/g` (bare URLs, pushed
only if not already collected).  Below, each regex is embedded as an explicit
character scanner with the same leftmost-match, advance-past-match semantics.
-/

/-- Matches the leading `https?:\/\/` of both regexes: consumes
`http://` or `https://` and returns (consumed, rest). -/
def urlSchemeSplit : List Char → Option (List Char × List Char)
  | 'h' :: 't' :: 't' :: 'p' :: 's' :: ':' :: '/' :: '/' :: r =>
      some (['h', 't', 't', 'p', 's', ':', '/', '/'], r)
  | 'h' :: 't' :: 't' :: 'p' :: ':' :: '/' :: '/' :: r =>
      some (['h', 't', 't', 'p', ':', '/', '/'], r)
  | _ => none

/-- Character class `[^|>]` of the wrapped-link regex. -/
def wrappedChar (c : Char) : Bool := decide (c ≠ '|') && decide (c ≠ '>')

/-- Character class `[^\s<>]` of the bare-URL regex (JS `\s` is embedded as
`Char.isWhitespace`; the inputs in this file contain only ASCII spaces). -/
def bareChar (c : Char) : Bool :=
  !c.isWhitespace && decide (c ≠ '<') && decide (c ≠ '>')

/-- One attempt of `/<(https?:\/\/[^|>]+)(?:\|[^>]*)?>/` at the start of `l`:
on success returns (captured group 1, rest of the text after the match). -/
def tryWrapped (l : List Char) : Option (List Char × List Char) :=
  match l with
  | '<' :: r =>
    match urlSchemeSplit r with
    | none => none
    | some (pre, r2) =>
      let run := r2.takeWhile wrappedChar
      let r3 := r2.dropWhile wrappedChar
      if run.isEmpty then none
      else
        match r3 with
        | '>' :: r4 => some (pre ++ run, r4)
        | '|' :: r4 =>
          match r4.dropWhile (fun c => decide (c ≠ '>')) with
          | '>' :: r6 => some (pre ++ run, r6)
          | _ => none
        | _ => none
  | _ => none

/-- All matches of the wrapped-link regex, leftmost first, scanning past each
match (the `exec` loop's `lastIndex` semantics).  The `fuel` argument only
drives structural recursion; `wrappedMatches` supplies enough for the whole
text since every step consumes at least one character. -/
def wrappedScanGo : Nat → List Char → List (List Char)
  | 0, _ => []
  | _, [] => []
  | Nat.succ n, c :: rest =>
    match tryWrapped (c :: rest) with
    | some (url, r) => url :: wrappedScanGo n r
    | none => wrappedScanGo n rest

/-- All wrapped-link matches of a text. -/
def wrappedMatches (l : List Char) : List (List Char) :=
  wrappedScanGo (l.length + 1) l

/-- One attempt of `/(?<![<|])https?:\/\/[^\s<>]+/` at the start of the
remaining text (the lookbehind is checked by the caller): on success returns
(match, rest, last character of the match). -/
def tryBare (l : List Char) : Option (List Char × List Char × Char) :=
  match urlSchemeSplit l with
  | none => none
  | some (pre, r2) =>
    let run := r2.takeWhile bareChar
    if run.isEmpty then none
    else some (pre ++ run, r2.dropWhile bareChar, run.getLastD 'x')

/-- All matches of the bare-URL regex; `prev` is the character immediately
before the current position (for the `(?<![<|])` lookbehind), `none` at the
start of the text. -/
def bareScanGo : Nat → Option Char → List Char → List (List Char)
  | 0, _, _ => []
  | _, _, [] => []
  | Nat.succ n, prev, c :: rest =>
    if prev = some '<' ∨ prev = some '|' then bareScanGo n (some c) rest
    else
      match tryBare (c :: rest) with
      | some (url, r, lastc) => url :: bareScanGo n (some lastc) r
      | none => bareScanGo n (some c) rest

/-- All bare-URL matches of a text. -/
def bareMatches (l : List Char) : List (List Char) :=
  bareScanGo (l.length + 1) none l

/-- `MAX_URL_MATCHES` (Rule 2 iteration bound in the source). -/
def MAX_URL_MATCHES : Nat := 100

/-- The second `exec` loop's accumulation: push each candidate only when it
is not already in the collected list (`!urls.includes(match[0])`). -/
def dedupAppend (acc : List String) : List String → List String
  | [] => acc
  | u :: us => if u ∈ acc then dedupAppend acc us else dedupAppend (acc ++ [u]) us

/-- Specification of what the bare-URL loop appends beyond `acc`: the
candidates in match order, keeping each only when it is not already among the
collected URLs (`acc` plus the candidates kept so far).  `dedupAppend acc us`
is proved to equal `acc ++ firstOccurrences acc us`. -/
def firstOccurrences (acc : List String) : List String → List String
  | [] => []
  | u :: us =>
    if u ∈ acc then firstOccurrences acc us
    else u :: firstOccurrences (acc ++ [u]) us

/-- The wrapped-link matches of a text, as strings. -/
def wrappedUrls (text : String) : List String :=
  (wrappedMatches text.toList).map (fun cs => String.mk cs)

/-- The bare-URL matches of a text, as strings. -/
def bareUrls (text : String) : List String :=
  (bareMatches text.toList).map (fun cs => String.mk cs)

/-- `extractUrls` (`src/services/url-extractor.ts`): wrapped-link matches are
collected first (unconditionally), then bare URLs deduplicated against the
collected list; one shared iteration counter caps the total number of matches
examined at `MAX_URL_MATCHES`. -/
def extractUrls (text : String) : List String :=
  let urls := (wrappedUrls text).take MAX_URL_MATCHES
  let iterations := urls.length
  dedupAppend urls ((bareUrls text).take (MAX_URL_MATCHES - iterations))

/-! ### Note store and event router
(`src/services/notion.ts`, `src/services/notion-helpers.ts`,
`api/slack/events.ts`)

The Notion database is modelled as a `List NotionEntry` of the live
(non-archived) pages; a query with a `"Slack Message ID" equals` filter is a
filter over that list.  The page's store-assigned `id`, and the `Timestamp`
date property (derived from the Slack `ts` by float parsing, used by no
claim), are outside the model. -/

/-- `NotionEntry` (`src/types/index.ts`) as persisted by
`createNotionEntry`. -/
structure NotionEntry where
  content : String
  category : PARACategory
  subcategory : Option AreaSubcategory := none
  confidence : ℚ
  slackMessageId : String
  channelName : String
  urls : List String := []
  nextAction : Option String := none
deriving DecidableEq, Repr

/-- `isDuplicate` (`src/services/notion.ts`): a query for
`"Slack Message ID" equals slackMessageId` with `page_size 1` returns a
result iff some live entry carries that id. -/
def isDuplicate (store : List NotionEntry) (slackMessageId : String) : Bool :=
  store.any (fun e => decide (e.slackMessageId = slackMessageId))

/-- Number of live entries carrying a given Slack message id. -/
def countById (store : List NotionEntry) (slackMessageId : String) : Nat :=
  (store.filter (fun e => decide (e.slackMessageId = slackMessageId))).length

/-- `createNotionEntry` (`src/services/notion.ts`): validates the required
fields (`validateNotionEntry` in `src/services/notion-helpers.ts`), then
creates the page.  The new page is appended to the store. -/
def createNotionEntry (store : List NotionEntry) (entry : NotionEntry) :
    Except String (List NotionEntry) :=
  if entry.content = "" then
    .error "createNotionEntry: entry.content must be a non-empty string"
  else if entry.slackMessageId = "" then
    .error "createNotionEntry: entry.slackMessageId must be a non-empty string"
  else .ok (store ++ [entry])

/-- A normalized Slack message event (`MessageEvent` in
`api/slack/events.ts`). -/
structure MessageEvent where
  text : String
  channel : String
  ts : String
  threadTs : Option String := none
deriving DecidableEq, Repr

/-- Terminal outcome of processing one message event; used to observe which
branch of the router ran. -/
inductive ProcessOutcome
  | invalidEvent | emptyText | answered | droppedNoise | duplicateDropped
  | created | missingCategory | threadAppended | unknownParent
deriving DecidableEq, Repr

/-- `event.thread_ts && event.thread_ts !== event.ts` (thread-reply test in
`processMessage`); JS truthiness makes an empty `thread_ts` falsy. -/
def isThreadReply (ev : MessageEvent) : Bool :=
  match ev.threadTs with
  | some t => decide (t ≠ "") && decide (t ≠ ev.ts)
  | none => false

/-- JS `String.prototype.trim`: strip leading and trailing whitespace
(embedded with `Char.isWhitespace` as the whitespace class). -/
def jsTrim (s : String) : String :=
  String.mk
    ((((s.toList.dropWhile Char.isWhitespace).reverse.dropWhile
        Char.isWhitespace).reverse))

/-- The content separator used by `appendToNotionEntry`. -/
def appendSeparator : String := "\n\n---\n\n"

/-- Replace the first entry carrying `slackMessageId` (the page found by
`findEntryBySlackMessageId`, whose query returns one page) by `f` of it. -/
def replaceFirst (store : List NotionEntry) (slackMessageId : String)
    (f : NotionEntry → NotionEntry) : List NotionEntry :=
  match store with
  | [] => []
  | e :: rest =>
    if e.slackMessageId = slackMessageId then f e :: rest
    else e :: replaceFirst rest slackMessageId f

/-- The entry literal built in `processMessage` / `restoreEntryFromSlack`
before calling `createNotionEntry` (subcategory and nextAction are attached
only when truthy). -/
def buildEntry (c : MessageClassification) (cat : PARACategory)
    (text messageId channelId : String) : NotionEntry :=
  { content := text
    category := cat
    subcategory := c.subcategory
    confidence := c.confidence
    slackMessageId := messageId
    channelName := channelId
    urls := extractUrls text
    nextAction := truthyString c.nextAction }

/-- `processThreadReply` (`api/slack/events.ts`): questions are answered from
the parent note, noise is dropped, note-intent replies are appended to the
parent's content (or dropped when the parent is unknown). -/
def processThreadReply (classify : String → MessageClassification)
    (ev : MessageEvent) (store : List NotionEntry) :
    List NotionEntry × ProcessOutcome :=
  if ev.ts = "" ∨ ev.channel = "" ∨ ev.text = "" then (store, .invalidEvent)
  else
    match ev.threadTs with
    | none => (store, .invalidEvent)
    | some threadTs =>
      if threadTs = "" then (store, .invalidEvent)
      else
        let text := jsTrim ev.text
        if text = "" then (store, .emptyText)
        else
          let c := classify text
          if c.intent = .question then (store, .answered)
          else if c.intent = .noise ∨ c.isMeaningful = false then
            (store, .droppedNoise)
          else if isDuplicate store threadTs then
            (replaceFirst store threadTs
              (fun e => { e with content := e.content ++ appendSeparator ++ text }),
             .threadAppended)
          else (store, .unknownParent)

/-- `processMessage` (`api/slack/events.ts`): the NewMessage path — validate,
dispatch thread replies, trim, classify, answer questions, drop noise, drop
duplicates, and otherwise create the note. -/
def processMessage (classify : String → MessageClassification)
    (ev : MessageEvent) (store : List NotionEntry) :
    List NotionEntry × ProcessOutcome :=
  if ev.ts = "" ∨ ev.channel = "" ∨ ev.text = "" then (store, .invalidEvent)
  else if isThreadReply ev then processThreadReply classify ev store
  else
    let text := jsTrim ev.text
    if text = "" then (store, .emptyText)
    else
      let c := classify text
      if c.intent = .question then (store, .answered)
      else if c.intent = .noise ∨ c.isMeaningful = false then
        (store, .droppedNoise)
      else if isDuplicate store ev.ts then (store, .duplicateDropped)
      else
        match c.category with
        | none => (store, .missingCategory)
        | some cat =>
          match createNotionEntry store (buildEntry c cat text ev.ts ev.channel) with
          | .error _ => (store, .invalidEvent)
          | .ok s => (s, .created)

/-- `restoreEntryFromSlack` (`api/slack/events.ts`), reached from
`handleReactionRemoved` for the `x` reaction: `fetchedText` is the result of
`fetchSlackMessage` (`none` when the message could not be fetched).  It
re-classifies and re-creates the entry; note that no duplicate check is
performed on this path.  Returns the new store and whether an entry was
created. -/
def restoreEntryFromSlack (classify : String → MessageClassification)
    (fetchedText : Option String) (channel messageTs : String)
    (store : List NotionEntry) : List NotionEntry × Bool :=
  if channel = "" ∨ messageTs = "" then (store, false)
  else
    match fetchedText with
    | none => (store, false)
    | some text =>
      if text = "" then (store, false)
      else
        let c := classify text
        if c.intent ≠ .note ∨ c.isMeaningful = false then (store, false)
        else
          match c.category with
          | none => (store, false)
          | some cat =>
            match createNotionEntry store (buildEntry c cat text messageTs channel) with
            | .error _ => (store, false)
            | .ok s => (s, true)

/-- Title derivation in `buildNotionProperties`
(`src/services/notion-helpers.ts`):
`entry.content.slice(0, 100) + (entry.content.length > 100 ? "..." : "")`. -/
def buildTitle (content : List Char) : List Char :=
  content.take 100 ++ (if 100 < content.length then ['.', '.', '.'] else [])

/-! ### Reminder scheduler and status sync
(`src/services/reminder.ts` tiered version, `src/services/status-sync.ts`,
`api/cron/hourly.ts`)

For the cron-side services a Notion page is modelled with the properties the
services read: the optional rich-text/select/date properties come out of the
extract helpers as `Option`s, and a missing `Reminder Count` is already
defaulted to `0` by `extractNumber` (`prop?.number ?? 0`). -/

/-- Lifecycle status select options (`notion-schema.ts`). -/
inductive NoteStatus
  | Open | Done | Parked
deriving DecidableEq, Repr

/-- A stored page as seen by the cron services. -/
structure NotionPage where
  pageId : String
  slackMessageId : Option String
  channelId : Option String
  nextAction : Option String
  status : Option NoteStatus
  syncedStatus : Option NoteStatus
  lastReminderAt : Option Int
  reminderCount : Int
deriving DecidableEq, Repr

/-- JS truthiness of an extracted optional string. -/
def truthy : Option String → Bool
  | none => false
  | some s => decide (s ≠ "")

/-- `24 * 60 * 60 * 1000` (`oneDayMs`). -/
def oneDayMs : Int := 24 * 60 * 60 * 1000

/-- `48 * 60 * 60 * 1000` (`twoDaysMs`). -/
def twoDaysMs : Int := 48 * 60 * 60 * 1000

/-- `7 * 24 * 60 * 60 * 1000` (`oneWeekMs`). -/
def oneWeekMs : Int := 7 * 24 * 60 * 60 * 1000

/-- `DAILY_THRESHOLD = 3`. -/
def DAILY_THRESHOLD : Int := 3

/-- `EVERY_OTHER_DAY_THRESHOLD = 6`. -/
def EVERY_OTHER_DAY_THRESHOLD : Int := 6

/-- `AUTO_PARK_THRESHOLD = 8`. -/
def AUTO_PARK_THRESHOLD : Int := 8

/-- `needsReminder` (`src/services/reminder.ts`): no last reminder means
always eligible; otherwise the tiered schedule on `reminderCount` applies to
`now - lastReminderTime`. -/
def needsReminder (now : Int) (reminderCount : Int)
    (lastReminderAt : Option Int) : Bool :=
  match lastReminderAt with
  | none => true
  | some lastReminderTime =>
    let timeSinceReminder := now - lastReminderTime
    if reminderCount < DAILY_THRESHOLD then decide (timeSinceReminder ≥ oneDayMs)
    else if reminderCount < EVERY_OTHER_DAY_THRESHOLD then
      decide (timeSinceReminder ≥ twoDaysMs)
    else if reminderCount < AUTO_PARK_THRESHOLD then
      decide (timeSinceReminder ≥ oneWeekMs)
    else false

/-- `getPendingActions` (`src/services/reminder.ts`): the Notion query filter
(`Next Action` non-empty and `Status = Open`, `page_size 50`) followed by the
in-code validation and `needsReminder` filter. -/
def getPendingActions (now : Int) (store : List NotionPage) :
    List NotionPage :=
  ((store.filter (fun p =>
      truthy p.nextAction && decide (p.status = some .Open))).take 50).filter
    (fun p =>
      truthy p.nextAction && truthy p.slackMessageId && truthy p.channelId &&
      needsReminder now p.reminderCount p.lastReminderAt)

/-- `updateLastReminder(pageId, currentCount)` (`src/services/reminder.ts`,
tiered version): validates its arguments at runtime — `currentCount = none`
models the JS `undefined` produced by a call that omits the argument
(`typeof currentCount !== "number"` then throws) — and on success sets
`Last Reminder = now` and `Reminder Count = currentCount + 1`. -/
def updateLastReminder (pageId : String) (currentCount : Option Int)
    (now : Int) (store : List NotionPage) :
    Except String (List NotionPage) :=
  if pageId = "" then
    .error "updateLastReminder: pageId must be a non-empty string"
  else
    match currentCount with
    | none => .error "updateLastReminder: currentCount must be a non-negative number"
    | some c =>
      if c < 0 then
        .error "updateLastReminder: currentCount must be a non-negative number"
      else
        .ok (store.map (fun p =>
          if p.pageId = pageId then
            { p with lastReminderAt := some now, reminderCount := c + 1 }
          else p))

/-- `parkEntry` (`src/services/reminder.ts`): sets `Status = Parked`.
Exported by the reminder service but invoked by no handler in the
repository. -/
def parkEntry (pageId : String) (store : List NotionPage) :
    Except String (List NotionPage) :=
  if pageId = "" then .error "parkEntry: pageId must be a non-empty string"
  else
    .ok (store.map (fun p =>
      if p.pageId = pageId then { p with status := some .Parked } else p))

/-- The reminder loop of the hourly handler (`api/cron/hourly.ts`): up to
`MAX_REMINDERS_PER_RUN = 20` pending actions; on a confirmed successful
delivery (`deliveryOk`), the handler calls `updateLastReminder(action.pageId)`
— with no second argument, so `currentCount` is `undefined`/`none` — and the
per-item `try`/`catch` swallows any error and continues with the next
candidate. -/
def hourlyReminderPass (now : Int) (deliveryOk : String → Bool)
    (store : List NotionPage) : List NotionPage :=
  ((getPendingActions now store).take 20).foldl
    (fun s a =>
      if deliveryOk a.pageId then
        match updateLastReminder a.pageId none now s with
        | .ok s2 => s2
        | .error _ => s
      else s)
    store

/-- The drift test of `getStatusChanges` (`src/services/status-sync.ts`):
`(currentStatus === "Done" && syncedStatus !== "Done") ||
 (currentStatus === "Open" && syncedStatus === "Done")`. -/
def needsSync (currentStatus : NoteStatus) (syncedStatus : Option NoteStatus) :
    Bool :=
  decide ((currentStatus = .Done ∧ syncedStatus ≠ some .Done) ∨
          (currentStatus = .Open ∧ syncedStatus = some .Done))

/-- The Notion query prefilter of `getStatusChanges`
(`Status = Done` or `Synced Status = Done`, `page_size 100`). -/
def statusQueryPre (p : NotionPage) : Bool :=
  decide (p.status = some .Done) || decide (p.syncedStatus = some .Done)

/-- `StatusChange` (`src/services/status-sync.ts`). -/
structure StatusChange where
  pageId : String
  slackMessageId : String
  channelId : String
  currentStatus : NoteStatus
  syncedStatus : Option NoteStatus
deriving DecidableEq, Repr

/-- `getStatusChanges` (`src/services/status-sync.ts`): query, skip entries
with missing Slack info or status, keep entries passing `needsSync`. -/
def getStatusChanges (store : List NotionPage) : List StatusChange :=
  ((store.filter statusQueryPre).take 100).filterMap (fun p =>
    match p.slackMessageId, p.channelId, p.status with
    | some mid, some ch, some st =>
      if mid = "" ∨ ch = "" then none
      else if needsSync st p.syncedStatus then
        some { pageId := p.pageId, slackMessageId := mid, channelId := ch,
               currentStatus := st, syncedStatus := p.syncedStatus }
      else none
    | _, _, _ => none)

/-- `updateSyncedStatus` (`src/services/status-sync.ts`): sets
`Synced Status` of the page. -/
def updateSyncedStatus (pageId : String) (status : NoteStatus)
    (store : List NotionPage) : List NotionPage :=
  store.map (fun p =>
    if p.pageId = pageId then { p with syncedStatus := some status } else p)

/-- One iteration of the status-sync loop in the hourly handler: mirror the
change to Slack (reaction and status message, outside the store model), then
record the new synced status. -/
def syncAction (change : StatusChange) (store : List NotionPage) :
    List NotionPage :=
  if change.currentStatus = .Done ∧ change.syncedStatus ≠ some .Done then
    updateSyncedStatus change.pageId .Done store
  else if change.currentStatus = .Open ∧ change.syncedStatus = some .Done then
    updateSyncedStatus change.pageId .Open store
  else store

/-- The status-sync loop of the hourly handler: up to
`MAX_STATUS_SYNCS_PER_RUN = 20` drifted entries. -/
def statusSyncPass (store : List NotionPage) : List NotionPage :=
  ((getStatusChanges store).take 20).foldl (fun s c => syncAction c s) store

/-- One full run of the hourly cron handler (`api/cron/hourly.ts`): the
reminder pass followed by the status-sync pass.  No branch of the handler
calls `parkEntry`. -/
def hourlyRun (now : Int) (deliveryOk : String → Bool)
    (store : List NotionPage) : List NotionPage :=
  statusSyncPass (hourlyReminderPass now deliveryOk store)

/-! ### Concrete sample data for witnesses and counterexamples -/

/-- A raw model response: a note proposal for `Projects` with confidence
`0.5`, below the default threshold `0.7`. -/
def lowConfResp : ClaudeIntentResponse :=
  { intent := .note, isMeaningful := true, category := some .Projects,
    subcategory := none, confidence := some (1/2), reasoning := "low",
    nextAction := none }

/-- A raw model response: a high-confidence `Areas` note for which the model
supplied no subcategory. -/
def areasResp : ClaudeIntentResponse :=
  { intent := .note, isMeaningful := true, category := some .Areas,
    subcategory := none, confidence := some 1, reasoning := "areas",
    nextAction := none }

/-- A classification as produced for a confident `Projects` note. -/
def projectsClassification : MessageClassification :=
  { intent := .note, isMeaningful := true, category := some .Projects,
    subcategory := none, confidence := 9/10, reasoning := "r",
    nextAction := none }

/-- A concrete top-level Slack message event. -/
def sampleEvent : MessageEvent :=
  { text := "buy milk", channel := "C1", ts := "111.222", threadTs := none }

/-- A live store entry carrying the Slack message id `"111.222"`. -/
def sampleEntry : NotionEntry :=
  { content := "buy milk", category := .Projects, subcategory := none,
    confidence := 9/10, slackMessageId := "111.222", channelName := "C1",
    urls := [], nextAction := none }

/-- A page that is due for a reminder: `Open`, has a next action, never
reminded. -/
def samplePendingPage : NotionPage :=
  { pageId := "p1", slackMessageId := some "m1", channelId := some "c1",
    nextAction := some "call the dentist", status := some .Open,
    syncedStatus := some .Open, lastReminderAt := none, reminderCount := 0 }

/-- A page that has exhausted the reminder schedule: `reminderCount = 8`
with a recorded last reminder at time `0`. -/
def exhaustedPage : NotionPage :=
  { pageId := "p8", slackMessageId := some "m8", channelId := some "c8",
    nextAction := some "finish the report", status := some .Open,
    syncedStatus := some .Open, lastReminderAt := some 0, reminderCount := 8 }

/-- A page whose status drifted: marked `Done` in Notion while the last
status mirrored to Slack is `Open`. -/
def driftPage : NotionPage :=
  { pageId := "pd", slackMessageId := some "md", channelId := some "cd",
    nextAction := none, status := some .Done, syncedStatus := some .Open,
    lastReminderAt := none, reminderCount := 0 }

/-! ## Theorems -/

/-- Core of the confidence-threshold law on the success path of the
classifier. -/
lemma classifyIntentLogic_low_conf (threshold : ℚ) (r : ClaudeIntentResponse)
    (hnote : (classifyIntentLogic threshold r).intent = .note)
    (hconf : (classifyIntentLogic threshold r).confidence < threshold) :
    (classifyIntentLogic threshold r).category = some .Inbox ∧
    (classifyIntentLogic threshold r).subcategory = none := by
  by_cases hq : r.intent = .question
  · simp [classifyIntentLogic, hq] at hnote
  · by_cases hn : r.intent = .noise ∨ r.isMeaningful = false
    · simp [classifyIntentLogic, hq, hn] at hnote
    · simp only [classifyIntentLogic, if_neg hq, if_neg hn] at hconf ⊢
      by_cases hlt : clamp01 (r.confidence.getD 0) < threshold
      · simp [hlt]
      · exact absurd hconf hlt

/-- The thread-reply path never reports a created note. -/
lemma processThreadReply_ne_created (f : String → MessageClassification)
    (ev : MessageEvent) (store : List NotionEntry) :
    (processThreadReply f ev store).2 ≠ .created := by
  simp only [processThreadReply]
  repeat' split
  all_goals simp

/-- Inversion of a `.created` outcome of `processMessage`: the final store is
the old store plus the entry built from the classification. -/
lemma processMessage_created_inv (f : String → MessageClassification)
    (ev : MessageEvent) (store s : List NotionEntry)
    (h : processMessage f ev store = (s, .created)) :
    ∃ cat, (f (jsTrim ev.text)).category = some cat ∧
      s = store ++ [buildEntry (f (jsTrim ev.text)) cat (jsTrim ev.text) ev.ts ev.channel] := by
  simp only [processMessage] at h
  split at h
  · simp at h
  · split at h
    · exact absurd (congrArg Prod.snd h) (processThreadReply_ne_created f ev store)
    · split at h
      · simp at h
      · split at h
        · simp at h
        · split at h
          · simp at h
          · split at h
            · simp at h
            · split at h
              · simp at h
              · rename_i cat hcat
                split at h
                · simp at h
                · rename_i s2 hok
                  refine ⟨cat, hcat, ?_⟩
                  simp only [createNotionEntry] at hok
                  split at hok
                  · simp at hok
                  · split at hok
                    · simp at hok
                    · simp only [Except.ok.injEq] at hok
                      simp only [Prod.mk.injEq] at h
                      rw [← h.1, ← hok]

/-- Forward evaluation of a NewMessage run that creates a note. -/
lemma processMessage_note_run (f : String → MessageClassification)
    (ev : MessageEvent) (store : List NotionEntry) (cat : PARACategory)
    (hts : ev.ts ≠ "") (hch : ev.channel ≠ "") (htx : ev.text ≠ "")
    (hth : ev.threadTs = none) (htr : jsTrim ev.text ≠ "")
    (hint : (f (jsTrim ev.text)).intent = .note)
    (hmean : (f (jsTrim ev.text)).isMeaningful = true)
    (hcat : (f (jsTrim ev.text)).category = some cat)
    (hdup : isDuplicate store ev.ts = false) :
    processMessage f ev store =
      (store ++ [buildEntry (f (jsTrim ev.text)) cat (jsTrim ev.text) ev.ts ev.channel],
       .created) := by
  have hval : ¬(ev.ts = "" ∨ ev.channel = "" ∨ ev.text = "") := by
    push_neg; exact ⟨hts, hch, htx⟩
  have hthread : isThreadReply ev = false := by simp [isThreadReply, hth]
  have hq : ¬(f (jsTrim ev.text)).intent = .question := by simp [hint]
  have hn : ¬((f (jsTrim ev.text)).intent = .noise ∨
      (f (jsTrim ev.text)).isMeaningful = false) := by simp [hint, hmean]
  simp only [processMessage, if_neg hval, hthread, Bool.false_eq_true,
    if_false, if_neg htr, if_neg hq, if_neg hn, hdup, hcat,
    createNotionEntry, buildEntry]
  simp [htr, hts]

/-- Forward evaluation of a NewMessage run that hits the duplicate guard. -/
lemma processMessage_dup_run (f : String → MessageClassification)
    (ev : MessageEvent) (store : List NotionEntry)
    (hts : ev.ts ≠ "") (hch : ev.channel ≠ "") (htx : ev.text ≠ "")
    (hth : ev.threadTs = none) (htr : jsTrim ev.text ≠ "")
    (hint : (f (jsTrim ev.text)).intent = .note)
    (hmean : (f (jsTrim ev.text)).isMeaningful = true)
    (hdup : isDuplicate store ev.ts = true) :
    processMessage f ev store = (store, .duplicateDropped) := by
  have hval : ¬(ev.ts = "" ∨ ev.channel = "" ∨ ev.text = "") := by
    push_neg; exact ⟨hts, hch, htx⟩
  have hthread : isThreadReply ev = false := by simp [isThreadReply, hth]
  have hq : ¬(f (jsTrim ev.text)).intent = .question := by simp [hint]
  have hn : ¬((f (jsTrim ev.text)).intent = .noise ∨
      (f (jsTrim ev.text)).isMeaningful = false) := by simp [hint, hmean]
  simp only [processMessage, if_neg hval, hthread, Bool.false_eq_true,
    if_false, if_neg htr, if_neg hq, if_neg hn, hdup, if_true]

/-- An entry appended with the searched id makes the duplicate guard fire. -/
lemma isDuplicate_append (store : List NotionEntry) (e : NotionEntry)
    (mid : String) (h : e.slackMessageId = mid) :
    isDuplicate (store ++ [e]) mid = true := by
  simp [isDuplicate, List.any_append, h]

/-- A clean duplicate guard means no entry carries the id. -/
lemma countById_of_not_dup (store : List NotionEntry) (mid : String)
    (h : isDuplicate store mid = false) : countById store mid = 0 := by
  simp only [isDuplicate, List.any_eq_false, decide_eq_true_eq] at h
  simp only [countById, List.length_eq_zero, List.filter_eq_nil_iff]
  intro a ha
  simpa using h a ha

/-- `countById` distributes over append. -/
lemma countById_append (s1 s2 : List NotionEntry) (mid : String) :
    countById (s1 ++ s2) mid = countById s1 mid + countById s2 mid := by
  simp [countById, List.filter_append]

/-- C1: for every raw model response that `classifyMessageWithIntent`
post-processes into an `intent = note` classification whose (clamped)
confidence is strictly below the threshold, the returned classification has
category `Inbox` and no subcategory, and so does any note persisted from it
by the NewMessage path. -/
theorem low_confidence_note_is_inbox (threshold : ℚ) (r : ClaudeIntentResponse)
    (hnote : (classifyMessageWithIntent threshold (some r)).intent = .note)
    (hconf : (classifyMessageWithIntent threshold (some r)).confidence < threshold) :
    (classifyMessageWithIntent threshold (some r)).category = some .Inbox ∧
    (classifyMessageWithIntent threshold (some r)).subcategory = none ∧
    ∀ (ev : MessageEvent) (store s : List NotionEntry),
      processMessage (fun _ => classifyMessageWithIntent threshold (some r)) ev store =
        (s, .created) →
      ∃ e, s = store ++ [e] ∧ e.category = .Inbox ∧ e.subcategory = none := by
  have hcore := classifyIntentLogic_low_conf threshold r hnote hconf
  refine ⟨hcore.1, hcore.2, ?_⟩
  intro ev store s h
  obtain ⟨cat, hcat, hs⟩ := processMessage_created_inv _ ev store s h
  have hcatI : cat = PARACategory.Inbox := by
    have := hcore.1
    simp only [classifyMessageWithIntent] at this hcat
    rw [this] at hcat
    exact (Option.some.injEq .. ▸ hcat).symm
  refine ⟨_, hs, ?_, ?_⟩
  · simp [buildEntry, hcatI]
  · simpa [buildEntry, classifyMessageWithIntent] using hcore.2

/-- C1 witness: the concrete response `lowConfResp` (a `Projects` proposal at
confidence `0.5`) satisfies the hypotheses at threshold `0.7` and lands in
`Inbox` with no subcategory. -/
theorem low_confidence_note_is_inbox_witness :
    (classifyMessageWithIntent (7/10) (some lowConfResp)).intent = .note ∧
    (classifyMessageWithIntent (7/10) (some lowConfResp)).confidence < 7/10 ∧
    (classifyMessageWithIntent (7/10) (some lowConfResp)).category = some .Inbox ∧
    (classifyMessageWithIntent (7/10) (some lowConfResp)).subcategory = none := by
  have h1 : (classifyMessageWithIntent (7/10) (some lowConfResp)).intent = .note := by
    simp [classifyMessageWithIntent, classifyIntentLogic, lowConfResp]
  have h2 : (classifyMessageWithIntent (7/10) (some lowConfResp)).confidence < 7/10 := by
    simp [classifyMessageWithIntent, classifyIntentLogic, lowConfResp, clamp01]
    norm_num [min_def, max_def]
  exact ⟨h1, h2, (low_confidence_note_is_inbox (7/10) lowConfResp h1 h2).1,
         (low_confidence_note_is_inbox (7/10) lowConfResp h1 h2).2.1⟩

/-- C2: processing the NewMessage path twice with the same external message
id and text (the classifier returning a meaningful note both times) creates
the note on the first run, and the second run detects the duplicate via
`isDuplicate`, terminates, and leaves the store untouched — exactly one entry
carries the id. -/
theorem newMessage_idempotent_creation
    (classify : String → MessageClassification) (ev : MessageEvent)
    (store : List NotionEntry) (cat : PARACategory)
    (hts : ev.ts ≠ "") (hch : ev.channel ≠ "") (htx : ev.text ≠ "")
    (hth : ev.threadTs = none) (htr : jsTrim ev.text ≠ "")
    (hint : (classify (jsTrim ev.text)).intent = .note)
    (hmean : (classify (jsTrim ev.text)).isMeaningful = true)
    (hcat : (classify (jsTrim ev.text)).category = some cat)
    (hdup : isDuplicate store ev.ts = false) :
    (processMessage classify ev store).2 = .created ∧
    processMessage classify ev (processMessage classify ev store).1 =
      ((processMessage classify ev store).1, .duplicateDropped) ∧
    countById (processMessage classify ev store).1 ev.ts = 1 := by
  have h1 := processMessage_note_run classify ev store cat hts hch htx hth htr
    hint hmean hcat hdup
  have hmid : (buildEntry (classify (jsTrim ev.text)) cat (jsTrim ev.text)
      ev.ts ev.channel).slackMessageId = ev.ts := by simp [buildEntry]
  have hdup2 := isDuplicate_append store _ ev.ts hmid
  have h2 := processMessage_dup_run classify ev _ hts hch htx hth htr
    hint hmean hdup2
  rw [h1]
  refine ⟨rfl, h2, ?_⟩
  rw [countById_append, countById_of_not_dup store ev.ts hdup]
  simp [countById, hmid]

/-- C2 witness: a concrete event processed twice against the empty store with
a confident `Projects` classification. -/
theorem newMessage_idempotent_creation_witness :
    (processMessage (fun _ => projectsClassification) sampleEvent []).2 = .created ∧
    processMessage (fun _ => projectsClassification) sampleEvent
        (processMessage (fun _ => projectsClassification) sampleEvent []).1 =
      ((processMessage (fun _ => projectsClassification) sampleEvent []).1,
       .duplicateDropped) ∧
    countById (processMessage (fun _ => projectsClassification) sampleEvent []).1
      sampleEvent.ts = 1 :=
  newMessage_idempotent_creation (fun _ => projectsClassification) sampleEvent []
    .Projects (by decide) (by decide) (by decide) rfl (by decide) rfl rfl rfl rfl

/-- The classifier only attaches a subcategory when the final category is
`Areas`. -/
lemma classifyIntentLogic_subcategory_areas (threshold : ℚ)
    (r : ClaudeIntentResponse)
    (h : (classifyIntentLogic threshold r).subcategory.isSome = true) :
    (classifyIntentLogic threshold r).category = some .Areas := by
  by_cases hq : r.intent = .question
  · simp [classifyIntentLogic, hq] at h
  · by_cases hn : r.intent = .noise ∨ r.isMeaningful = false
    · simp [classifyIntentLogic, hq, hn] at h
    · simp only [classifyIntentLogic, if_neg hq, if_neg hn] at h ⊢
      by_cases ha : (if clamp01 (r.confidence.getD 0) < threshold then
          PARACategory.Inbox else r.category.getD .Uncategorized) = .Areas
      · simp [ha]
      · simp [ha] at h

/-- Inversion of a successful restore: the final store is the old store plus
the entry rebuilt from the re-classification of the fetched text. -/
lemma restoreEntry_created_inv (f : String → MessageClassification)
    (fetched : Option String) (channel messageTs : String)
    (store s : List NotionEntry)
    (h : restoreEntryFromSlack f fetched channel messageTs store = (s, true)) :
    ∃ text cat, fetched = some text ∧ (f text).category = some cat ∧
      s = store ++ [buildEntry (f text) cat text messageTs channel] := by
  simp only [restoreEntryFromSlack] at h
  split at h
  · simp at h
  · split at h
    · simp at h
    · rename_i text
      split at h
      · simp at h
      · split at h
        · simp at h
        · split at h
          · simp at h
          · rename_i cat hcat
            split at h
            · simp at h
            · rename_i s2 hok
              refine ⟨text, cat, rfl, hcat, ?_⟩
              simp only [createNotionEntry] at hok
              split at hok
              · simp at hok
              · split at hok
                · simp at hok
                · simp only [Except.ok.injEq] at hok
                  simp only [Prod.mk.injEq] at h
                  rw [← h.1, ← hok]

/-- C3 counterexample: a high-confidence `Areas` response for which the model
supplied no subcategory is persisted by the NewMessage path as an `Areas`
note without a subcategory — refuting "an Areas note always stores one". -/
theorem subcategory_iff_counterexample :
    ((processMessage (fun _ => classifyMessageWithIntent (7/10) (some areasResp))
        sampleEvent []).1.map (fun e => (e.category, e.subcategory))) =
      [(PARACategory.Areas, (none : Option AreaSubcategory))] := by
  have hc : classifyMessageWithIntent (7/10) (some areasResp) =
      { intent := .note, isMeaningful := true, category := some .Areas,
        subcategory := none, confidence := 1, reasoning := "areas",
        nextAction := none } := by
    simp [classifyMessageWithIntent, classifyIntentLogic, areasResp, clamp01,
      truthyString, min_def, max_def]
    norm_num
  have h1 := processMessage_note_run
    (fun _ => classifyMessageWithIntent (7/10) (some areasResp))
    sampleEvent [] .Areas (by decide) (by decide) (by decide) rfl (by decide)
    (by rw [hc]) (by rw [hc]) (by rw [hc]) rfl
  rw [h1]
  simp [buildEntry, hc]

/-- C3 (amended): for every note persisted through the creation path
(NewMessage or restore) with the real classifier, the subcategory is present
only if the category is `Areas` — a non-Areas note never stores a
subcategory; an `Areas` note may lack one when the model supplies none. -/
theorem subcategory_only_if_areas (threshold : ℚ)
    (raw : String → ClaudeIntentResponse) (ev : MessageEvent)
    (fetched : Option String) (channel messageTs : String)
    (store s : List NotionEntry) :
    (processMessage (fun t => classifyMessageWithIntent threshold (some (raw t)))
        ev store = (s, .created) →
      ∃ e, s = store ++ [e] ∧ (e.subcategory.isSome = true → e.category = .Areas) ∧
        (e.category ≠ .Areas → e.subcategory = none)) ∧
    (restoreEntryFromSlack (fun t => classifyMessageWithIntent threshold (some (raw t)))
        fetched channel messageTs store = (s, true) →
      ∃ e, s = store ++ [e] ∧ (e.subcategory.isSome = true → e.category = .Areas) ∧
        (e.category ≠ .Areas → e.subcategory = none)) := by
  have key : ∀ (t : String) (cat : PARACategory),
      (classifyMessageWithIntent threshold (some (raw t))).category = some cat →
      ((classifyMessageWithIntent threshold (some (raw t))).subcategory.isSome = true →
        cat = .Areas) ∧
      (cat ≠ .Areas →
        (classifyMessageWithIntent threshold (some (raw t))).subcategory = none) := by
    intro t cat hcat
    constructor
    · intro hsome
      have := classifyIntentLogic_subcategory_areas threshold (raw t)
        (by simpa [classifyMessageWithIntent] using hsome)
      simp only [classifyMessageWithIntent] at hcat
      rw [this] at hcat
      exact (Option.some.injEq .. ▸ hcat).symm
    · intro hne
      by_contra hne2
      have hsome : (classifyMessageWithIntent threshold (some (raw t))).subcategory.isSome = true := by
        cases hs : (classifyMessageWithIntent threshold (some (raw t))).subcategory with
        | none => exact absurd hs hne2
        | some _ => simp
      have := classifyIntentLogic_subcategory_areas threshold (raw t)
        (by simpa [classifyMessageWithIntent] using hsome)
      simp only [classifyMessageWithIntent] at hcat
      rw [this] at hcat
      exact hne (Option.some.injEq .. ▸ hcat).symm
  constructor
  · intro h
    obtain ⟨cat, hcat, hs⟩ := processMessage_created_inv _ ev store s h
    obtain ⟨k1, k2⟩ := key (jsTrim ev.text) cat hcat
    refine ⟨_, hs, ?_, ?_⟩
    · intro hsome
      simp only [buildEntry] at hsome ⊢
      exact k1 hsome
    · intro hne
      simp only [buildEntry] at hne ⊢
      exact k2 hne
  · intro h
    obtain ⟨text, cat, -, hcat, hs⟩ := restoreEntry_created_inv _ fetched channel
      messageTs store s h
    obtain ⟨k1, k2⟩ := key text cat hcat
    refine ⟨_, hs, ?_, ?_⟩
    · intro hsome
      simp only [buildEntry] at hsome ⊢
      exact k1 hsome
    · intro hne
      simp only [buildEntry] at hne ⊢
      exact k2 hne

/-- C3 witness: the amended claim applied to a concrete creating run (a
low-confidence note landing in `Inbox`). -/
theorem subcategory_only_if_areas_witness :
    ∃ e, (processMessage (fun _ => classifyMessageWithIntent (7/10) (some lowConfResp))
        sampleEvent []).1 = [] ++ [e] ∧
      (e.subcategory.isSome = true → e.category = .Areas) ∧
      (e.category ≠ .Areas → e.subcategory = none) := by
  have hc : classifyMessageWithIntent (7/10) (some lowConfResp) =
      { intent := .note, isMeaningful := true, category := some .Inbox,
        subcategory := none, confidence := 1/2, reasoning := "low",
        nextAction := none } := by
    simp [classifyMessageWithIntent, classifyIntentLogic, lowConfResp, clamp01,
      truthyString, min_def, max_def]
    norm_num
  have h1 := processMessage_note_run
    (fun _ => classifyMessageWithIntent (7/10) (some lowConfResp))
    sampleEvent [] .Inbox (by decide) (by decide) (by decide) rfl (by decide)
    (by rw [hc]) (by rw [hc]) (by rw [hc]) rfl
  exact (subcategory_only_if_areas (7/10) (fun _ => lowConfResp) sampleEvent
    none "" "" [] _).1 (by rw [h1])

/-- C4 counterexample: a note with `reminderCount = 8` (the auto-park
threshold) that has no recorded `lastReminderAt` IS eligible — the
never-reminded early return precedes every tier check — refuting "with
reminderCount >= 8 it is never eligible again". -/
theorem reminder_tiers_counterexample :
    AUTO_PARK_THRESHOLD ≤ 8 ∧ needsReminder 0 8 none = true := by decide

/-- C4 (amended): for a note with a recorded `lastReminderAt`, eligibility
follows the tiered backoff exactly (24h below count 3, 48h for counts 3–5,
7 days for counts 6–7, never for count >= 8); a note never reminded is
always eligible regardless of its count. -/
theorem needsReminder_tier_schedule (now count : Int) (last : Option Int) :
    needsReminder now count last = true ↔
      (last = none ∨ ∃ t, last = some t ∧
        ((count < 3 ∧ 86400000 ≤ now - t) ∨
         (3 ≤ count ∧ count < 6 ∧ 172800000 ≤ now - t) ∨
         (6 ≤ count ∧ count < 8 ∧ 604800000 ≤ now - t))) := by
  cases last with
  | none => simp [needsReminder]
  | some t =>
    simp only [needsReminder, DAILY_THRESHOLD, EVERY_OTHER_DAY_THRESHOLD,
      AUTO_PARK_THRESHOLD, oneDayMs, twoDaysMs, oneWeekMs, ge_iff_le,
      Option.some.injEq, reduceCtorEq, false_or, exists_eq_left']
    split_ifs with h1 h2 h3 <;>
      simp only [decide_eq_true_eq, Bool.false_eq_true, false_iff, not_or,
        not_and, not_lt, not_le] <;>
      omega

/-- `updateLastReminder` called without its `currentCount` argument (as the
hourly handler does) always fails its runtime assertion. -/
lemma updateLastReminder_none (pageId : String) (now : Int)
    (store : List NotionPage) :
    ∃ msg, updateLastReminder pageId none now store = .error msg := by
  simp only [updateLastReminder]
  split
  · exact ⟨_, rfl⟩
  · exact ⟨_, rfl⟩

/-- The reminder pass of the hourly handler never changes the store: every
`updateLastReminder(action.pageId)` call throws (missing `currentCount`) and
the per-item catch swallows the error. -/
lemma hourlyReminderPass_id (now : Int) (deliveryOk : String → Bool)
    (store : List NotionPage) :
    hourlyReminderPass now deliveryOk store = store := by
  simp only [hourlyReminderPass]
  generalize ((getPendingActions now store).take 20) = l
  induction l generalizing store with
  | nil => rfl
  | cons a l ih =>
    rw [List.foldl_cons]
    have hstep : (if deliveryOk a.pageId = true then
        match updateLastReminder a.pageId none now store with
        | .ok s2 => s2
        | .error _ => store
      else store) = store := by
      obtain ⟨msg, hm⟩ := updateLastReminder_none a.pageId now store
      split
      · rw [hm]
      · rfl
    rw [hstep]
    exact ih store

/-- `updateSyncedStatus` never touches the `status` field. -/
lemma map_status_updateSyncedStatus (pageId : String) (st : NoteStatus)
    (store : List NotionPage) :
    (updateSyncedStatus pageId st store).map (fun p => p.status) =
      store.map (fun p => p.status) := by
  induction store with
  | nil => rfl
  | cons p l ih =>
    simp only [updateSyncedStatus, List.map_cons] at ih ⊢
    rw [ih]
    congr 1
    split <;> rfl

/-- One status-sync action never touches the `status` field. -/
lemma syncAction_status_map (c : StatusChange) (store : List NotionPage) :
    (syncAction c store).map (fun p => p.status) =
      store.map (fun p => p.status) := by
  simp only [syncAction]
  split_ifs
  · exact map_status_updateSyncedStatus c.pageId .Done store
  · exact map_status_updateSyncedStatus c.pageId .Open store
  · rfl

/-- The status-sync pass never touches the `status` field of any page. -/
lemma statusSyncPass_status_map (store : List NotionPage) :
    (statusSyncPass store).map (fun p => p.status) =
      store.map (fun p => p.status) := by
  simp only [statusSyncPass]
  generalize (getStatusChanges store).take 20 = l
  induction l generalizing store with
  | nil => rfl
  | cons c l ih =>
    rw [List.foldl_cons]
    rw [ih (syncAction c store)]
    exact syncAction_status_map c store

/-- C5: the hourly reminder loop never updates `reminderCount` or
`lastReminderAt`, even on a confirmed successful delivery — the handler calls
`updateLastReminder(action.pageId)` without the `currentCount` argument the
tiered service requires, its runtime assertion throws and the per-item catch
swallows it, so the whole pass is the identity; concretely, `samplePendingPage`
is selected and delivered yet its fields are unchanged. -/
theorem reminder_update_never_records :
    (∀ (now : Int) (deliveryOk : String → Bool) (store : List NotionPage),
      hourlyReminderPass now deliveryOk store = store) ∧
    getPendingActions 0 [samplePendingPage] = [samplePendingPage] ∧
    hourlyReminderPass 0 (fun _ => true) [samplePendingPage] =
      [samplePendingPage] :=
  ⟨hourlyReminderPass_id, by decide, hourlyReminderPass_id 0 _ _⟩

/-- C6: a note at `reminderCount = 8` with a recorded last reminder is never
again selected for a reminder, but no handler ever calls `parkEntry`: a full
hourly run preserves every page's `status` (so the note never transitions to
`Parked`), and concretely `exhaustedPage` stays `Open` forever. -/
theorem exhausted_note_never_parked :
    (∀ (now : Int) (deliveryOk : String → Bool) (store : List NotionPage),
      (hourlyRun now deliveryOk store).map (fun p => p.status) =
        store.map (fun p => p.status)) ∧
    (∀ now : Int, needsReminder now exhaustedPage.reminderCount
        exhaustedPage.lastReminderAt = false) ∧
    getPendingActions 1000000000000 [exhaustedPage] = [] ∧
    hourlyRun 1000000000000 (fun _ => true) [exhaustedPage] = [exhaustedPage] := by
  refine ⟨?_, ?_, by decide, ?_⟩
  · intro now deliveryOk store
    rw [hourlyRun, hourlyReminderPass_id]
    exact statusSyncPass_status_map store
  · intro now
    simp [needsReminder, exhaustedPage, DAILY_THRESHOLD,
      EVERY_OTHER_DAY_THRESHOLD, AUTO_PARK_THRESHOLD]
  · rw [hourlyRun, hourlyReminderPass_id]
    decide

/-- C7: with its Slack fields present, a note is selected by the reconciler
exactly when `(status=Done ∧ syncedStatus≠Done) ∨ (status=Open ∧
syncedStatus=Done)`; the sync pass then sets `syncedStatus` to `status`, an
immediately repeated pass selects the note in neither direction, and the
repeated pass changes nothing. -/
theorem statusSync_acts_exactly_on_drift (p : NotionPage) (mid ch : String)
    (st : NoteStatus)
    (hm : p.slackMessageId = some mid) (hmne : mid ≠ "")
    (hc : p.channelId = some ch) (hcne : ch ≠ "")
    (hs : p.status = some st) :
    (getStatusChanges [p] =
      if needsSync st p.syncedStatus then
        [{ pageId := p.pageId, slackMessageId := mid, channelId := ch,
           currentStatus := st, syncedStatus := p.syncedStatus }]
      else []) ∧
    (needsSync st p.syncedStatus = true ↔
      ((st = .Done ∧ p.syncedStatus ≠ some .Done) ∨
       (st = .Open ∧ p.syncedStatus = some .Done))) ∧
    (statusSyncPass [p] =
      if needsSync st p.syncedStatus then [{ p with syncedStatus := some st }]
      else [p]) ∧
    getStatusChanges (statusSyncPass [p]) = [] ∧
    statusSyncPass (statusSyncPass [p]) = statusSyncPass [p] := by
  obtain ⟨pid, pmid, pch, pna, pst, pss, plra, prc⟩ := p
  simp only at hm hc hs
  subst hm hc hs
  cases st <;> rcases pss with _ | (_ | _ | _) <;>
    simp [getStatusChanges, statusSyncPass, statusQueryPre, needsSync,
      syncAction, updateSyncedStatus, hmne, hcne]

/-- C7 witness: the concrete drifted page (`status=Done, syncedStatus=Open`)
is picked up, its synced status becomes `Done`, and a second pass changes
nothing. -/
theorem statusSync_acts_exactly_on_drift_witness :
    getStatusChanges [driftPage] =
      [{ pageId := "pd", slackMessageId := "md", channelId := "cd",
         currentStatus := .Done, syncedStatus := some .Open }] ∧
    statusSyncPass [driftPage] = [{ driftPage with syncedStatus := some .Done }] ∧
    getStatusChanges (statusSyncPass [driftPage]) = [] ∧
    statusSyncPass (statusSyncPass [driftPage]) = statusSyncPass [driftPage] := by
  have h := statusSync_acts_exactly_on_drift driftPage "md" "cd" .Done rfl
    (by decide) rfl (by decide) rfl
  rcases h with ⟨h1, _, h3, h4, h5⟩
  refine ⟨?_, ?_, h4, h5⟩
  · rw [h1]; simp [needsSync, driftPage]
  · rw [h3]; simp [needsSync, driftPage]

/-- C8 counterexample: two identical wrapped links are both collected — the
wrapped-link phase pushes unconditionally, so the result has a duplicate
string, refuting "no duplicate strings (literal string equality)". -/
theorem extractUrls_counterexample :
    extractUrls "<https://a.com> <https://a.com>" =
      ["https://a.com", "https://a.com"] ∧
    ¬ (extractUrls "<https://a.com> <https://a.com>").Nodup := by
  constructor
  · decide
  · decide

/-- Structure of `dedupAppend`: it appends to `acc` a duplicate-free
selection of its input, each element new to `acc`. -/
lemma dedupAppend_decomp (us acc : List String) :
    ∃ b, dedupAppend acc us = acc ++ b ∧ b.Nodup ∧
      (∀ u ∈ b, u ∉ acc) ∧ (∀ u ∈ b, u ∈ us) ∧ b.length ≤ us.length := by
  induction us generalizing acc with
  | nil => exact ⟨[], by simp [dedupAppend]⟩
  | cons u us ih =>
    by_cases hmem : u ∈ acc
    · obtain ⟨b, hb1, hb2, hb3, hb4, hb5⟩ := ih acc
      refine ⟨b, ?_, hb2, hb3, ?_, ?_⟩
      · simpa [dedupAppend, hmem] using hb1
      · exact fun x hx => List.mem_cons_of_mem _ (hb4 x hx)
      · exact Nat.le_succ_of_le hb5
    · obtain ⟨b, hb1, hb2, hb3, hb4, hb5⟩ := ih (acc ++ [u])
      refine ⟨u :: b, ?_, ?_, ?_, ?_, ?_⟩
      · rw [show dedupAppend acc (u :: us) = dedupAppend (acc ++ [u]) us from by
          simp [dedupAppend, hmem]]
        rw [hb1]
        simp
      · rw [List.nodup_cons]
        refine ⟨fun hub => ?_, hb2⟩
        exact hb3 u hub (by simp)
      · intro x hx
        rcases List.mem_cons.mp hx with rfl | hx2
        · exact hmem
        · intro hxa
          exact hb3 x hx2 (List.mem_append_left _ hxa)
      · intro x hx
        rcases List.mem_cons.mp hx with rfl | hx2
        · exact List.mem_cons_self _ _
        · exact List.mem_cons_of_mem _ (hb4 x hx2)
      · simpa using Nat.succ_le_succ hb5

/-- The bare-URL loop's accumulation is exactly `firstOccurrences`: `acc`
followed by the candidates in order, each kept only when new. -/
lemma dedupAppend_eq_firstOccurrences (us : List String) :
    ∀ acc, dedupAppend acc us = acc ++ firstOccurrences acc us := by
  induction us with
  | nil => intro acc; simp [dedupAppend, firstOccurrences]
  | cons u us ih =>
    intro acc
    by_cases hmem : u ∈ acc
    · simp only [dedupAppend, firstOccurrences, if_pos hmem]
      exact ih acc
    · simp only [dedupAppend, firstOccurrences, if_neg hmem]
      rw [ih (acc ++ [u]), List.append_assoc]
      rfl

/-- `firstOccurrences` keeps its input's order: it is a sublist of the
candidate list. -/
lemma firstOccurrences_sublist (us : List String) :
    ∀ acc, List.Sublist (firstOccurrences acc us) us := by
  induction us with
  | nil => intro acc; simp [firstOccurrences]
  | cons u us ih =>
    intro acc
    by_cases hmem : u ∈ acc
    · simp only [firstOccurrences, if_pos hmem]
      exact List.Sublist.cons u (ih acc)
    · simp only [firstOccurrences, if_neg hmem]
      exact List.Sublist.cons₂ u (ih (acc ++ [u]))

/-- C8 (amended): `extractUrls` returns the wrapped-link matches first, in
match order and without deduplication, followed by exactly the bare-URL
matches that are not already collected, in match order (`firstOccurrences`,
a sublist of the bare matches, duplicate-free and disjoint from the wrapped
prefix); the total length is capped by `MAX_URL_MATCHES`; the claim's two
concrete examples hold as stated. -/
theorem extractUrls_phase_structure :
    extractUrls "check <https://a.com|A> and https://b.com" =
      ["https://a.com", "https://b.com"] ∧
    extractUrls "no links here" = [] ∧
    ∀ text : String, ∃ bare : List String,
      bare = firstOccurrences ((wrappedUrls text).take MAX_URL_MATCHES)
        ((bareUrls text).take
          (MAX_URL_MATCHES - ((wrappedUrls text).take MAX_URL_MATCHES).length)) ∧
      extractUrls text = (wrappedUrls text).take MAX_URL_MATCHES ++ bare ∧
      List.Sublist bare
        ((bareUrls text).take
          (MAX_URL_MATCHES - ((wrappedUrls text).take MAX_URL_MATCHES).length)) ∧
      bare.Nodup ∧
      (∀ u ∈ bare, u ∉ (wrappedUrls text).take MAX_URL_MATCHES) ∧
      (∀ u ∈ bare, u ∈ bareUrls text) ∧
      (extractUrls text).length ≤ MAX_URL_MATCHES := by
  refine ⟨by decide, by decide, ?_⟩
  intro text
  obtain ⟨b, hb1, hb2, hb3, hb4, hb5⟩ := dedupAppend_decomp
    ((bareUrls text).take
      (MAX_URL_MATCHES - ((wrappedUrls text).take MAX_URL_MATCHES).length))
    ((wrappedUrls text).take MAX_URL_MATCHES)
  have hbfo : b = firstOccurrences ((wrappedUrls text).take MAX_URL_MATCHES)
      ((bareUrls text).take
        (MAX_URL_MATCHES - ((wrappedUrls text).take MAX_URL_MATCHES).length)) := by
    have h2 := dedupAppend_eq_firstOccurrences
      ((bareUrls text).take
        (MAX_URL_MATCHES - ((wrappedUrls text).take MAX_URL_MATCHES).length))
      ((wrappedUrls text).take MAX_URL_MATCHES)
    rw [hb1] at h2
    exact List.append_cancel_left h2
  have hx : extractUrls text = (wrappedUrls text).take MAX_URL_MATCHES ++ b := by
    simp only [extractUrls]
    exact hb1
  refine ⟨b, hbfo, hx, ?_, hb2, hb3, ?_, ?_⟩
  · rw [hbfo]
    exact firstOccurrences_sublist _ _
  · exact fun u hu => List.take_subset _ _ (hb4 u hu)
  · rw [hx]
    have h1 : ((wrappedUrls text).take MAX_URL_MATCHES).length ≤ MAX_URL_MATCHES :=
      List.length_take_le _ _
    have h2 : b.length ≤
        MAX_URL_MATCHES - ((wrappedUrls text).take MAX_URL_MATCHES).length :=
      le_trans hb5 (List.length_take_le _ _)
    rw [List.length_append]
    omega

/-- C8 witness: the amended theorem applied at the no-match input. -/
theorem extractUrls_phase_structure_witness :
    extractUrls "no links here" = [] :=
  extractUrls_phase_structure.2.1

/-- C4 witness: the tier characterization applied at a concrete input — a
note at `reminderCount = 2` last reminded at time 0 is eligible exactly 24h
later. -/
theorem needsReminder_tier_schedule_witness :
    needsReminder 86400000 2 (some 0) = true :=
  (needsReminder_tier_schedule 86400000 2 (some 0)).mpr
    (Or.inr ⟨0, rfl, Or.inl ⟨by norm_num, by norm_num⟩⟩)

/-- C9 counterexample: content of 101 characters produces a stored title of
103 characters (100-character slice plus a three-character ellipsis),
refuting "the resulting title never exceeds 100 characters". -/
theorem title_length_counterexample :
    (List.replicate 101 'a').length = 101 ∧
    (buildTitle (List.replicate 101 'a')).length = 103 := by
  constructor
  · decide
  · decide

/-- C9 (amended): the stored title is the 100-character prefix of the
content, with an ellipsis appended exactly when the content was truncated;
the resulting title never exceeds 103 characters (and its first 100
characters always agree with the content's). -/
theorem title_truncation (content : List Char) :
    (content.length ≤ 100 → buildTitle content = content) ∧
    (100 < content.length →
      buildTitle content = content.take 100 ++ ['.', '.', '.']) ∧
    (buildTitle content).length ≤ 103 ∧
    (buildTitle content).take 100 = content.take 100 := by
  refine ⟨?_, ?_, ?_, ?_⟩
  · intro h
    simp [buildTitle, not_lt.mpr h, List.take_of_length_le h]
  · intro h
    simp [buildTitle, h]
  · simp only [buildTitle]
    split <;> simp [List.length_take]
  · simp only [buildTitle]
    split
    · rename_i h
      have h100 : (content.take 100).length = 100 := by
        simp [List.length_take]
        omega
      rw [List.take_append_of_le_length (by rw [h100]), List.take_take]
      simp
    · rename_i h
      rw [List.append_nil, List.take_take]
      simp

/-- C9 witness: the amended claim applied at the 101-character content. -/
theorem title_truncation_witness :
    100 < (List.replicate 101 'a').length ∧
    buildTitle (List.replicate 101 'a') =
      (List.replicate 101 'a').take 100 ++ ['.', '.', '.'] :=
  ⟨by decide, (title_truncation (List.replicate 101 'a')).2.1 (by decide)⟩

/-- A fired duplicate guard means at least one entry carries the id. -/
lemma countById_pos_of_dup (store : List NotionEntry) (mid : String)
    (h : isDuplicate store mid = true) : 1 ≤ countById store mid := by
  simp only [isDuplicate, List.any_eq_true, decide_eq_true_eq] at h
  obtain ⟨e, he, hemid⟩ := h
  have hmem : e ∈ store.filter (fun x => decide (x.slackMessageId = mid)) :=
    List.mem_filter.mpr ⟨he, by simp [hemid]⟩
  simpa only [countById] using List.length_pos_of_mem hmem

/-- C10: the restore path performs no duplicate-guard check: whenever the
original text is fetched and classifies as a meaningful note, it creates an
entry unconditionally, so a store that already contains a live note with the
same external message id ends up with one more note under that id. -/
theorem restore_ignores_duplicates
    (classify : String → MessageClassification) (text channel mid : String)
    (store : List NotionEntry) (cat : PARACategory)
    (htext : text ≠ "") (hch : channel ≠ "") (hmid : mid ≠ "")
    (hint : (classify text).intent = .note)
    (hmean : (classify text).isMeaningful = true)
    (hcat : (classify text).category = some cat)
    (hdup : isDuplicate store mid = true) :
    (restoreEntryFromSlack classify (some text) channel mid store).2 = true ∧
    countById (restoreEntryFromSlack classify (some text) channel mid store).1 mid =
      countById store mid + 1 ∧
    1 ≤ countById store mid := by
  have hval : ¬(channel = "" ∨ mid = "") := by push_neg; exact ⟨hch, hmid⟩
  have hnn : ¬((classify text).intent ≠ .note ∨
      (classify text).isMeaningful = false) := by
    push_neg
    exact ⟨hint, by simp [hmean]⟩
  have hrun : restoreEntryFromSlack classify (some text) channel mid store =
      (store ++ [buildEntry (classify text) cat text mid channel], true) := by
    simp only [restoreEntryFromSlack, if_neg hval, if_neg htext, if_neg hnn,
      hcat, createNotionEntry, buildEntry]
    simp [htext, hmid]
  rw [hrun]
  refine ⟨rfl, ?_, countById_pos_of_dup store mid hdup⟩
  rw [countById_append]
  simp [countById, buildEntry]

/-- C10 witness: restoring over a store that already holds the note with id
`"111.222"` yields a second entry with that id. -/
theorem restore_ignores_duplicates_witness :
    (restoreEntryFromSlack (fun _ => projectsClassification) (some "buy milk")
        "C1" "111.222" [sampleEntry]).2 = true ∧
    countById (restoreEntryFromSlack (fun _ => projectsClassification)
        (some "buy milk") "C1" "111.222" [sampleEntry]).1 "111.222" =
      countById [sampleEntry] "111.222" + 1 ∧
    1 ≤ countById [sampleEntry] "111.222" :=
  restore_ignores_duplicates (fun _ => projectsClassification) "buy milk" "C1"
    "111.222" [sampleEntry] .Projects (by decide) (by decide) (by decide)
    rfl rfl rfl (by decide)

end Mbrain
